import Mathlib

/-!
Verification of the ARB arbitrage bot (`src/main.py`).

The embedding models the pure computational content of the bot:
prices, volumes and fees are rationals; Python dicts become
association lists (preserving insertion order, which is the
iteration order of Python dicts); absent / falsy values become
`Option`.
-/

namespace ARB

/-- Configuration record mirroring the `CONFIG` dict (src/main.py lines 12-21).
Only the fields read by the modelled functions are kept. -/
structure Config where
  exchanges : List String
  quote_currencies : List String
  min_volume_usd : ℚ
  max_spread_percent : ℚ
  arbitrage_min_profit_percent : ℚ
  trade_amount_btc : ℚ
deriving DecidableEq

/-- The concrete `CONFIG` value of src/main.py (lines 12-21). -/
def CONFIG : Config :=
  { exchanges := ["binance", "kraken", "coinbase"]
    quote_currencies := ["USDT", "USD", "BTC"]
    min_volume_usd := 1000000
    max_spread_percent := 1/2
    arbitrage_min_profit_percent := 1/5
    trade_amount_btc := 1/100 }

/-- The `FEES` dict (src/main.py lines 23-27). -/
def FEES : List (String × ℚ) :=
  [("binance", 1/1000), ("kraken", 2/1000), ("coinbase", 5/1000)]

/-- Association-list lookup, modelling Python `d.get(k)` / `k in d`. -/
def lookupKey {α : Type} : List (String × α) → String → Option α
  | [], _ => none
  | (k', v) :: rest, k => if k' = k then some v else lookupKey rest k

/-- Python dict assignment `d[k] = v`: replaces the value in place if the key
is present, appends otherwise (Python dicts keep insertion order). -/
def dictSet {α : Type} : List (String × α) → String → α → List (String × α)
  | [], k, v => [(k, v)]
  | (k', v') :: rest, k, v =>
      if k' = k then (k, v) :: rest else (k', v') :: dictSet rest k v

/-- `FEES.get(ex, 0.001)` (src/main.py lines 209-210). -/
def feeOf (ex : String) : ℚ := (lookupKey FEES ex).getD (1/1000)

/-- Helper for `splitSlash`: splits a character list at every `'/'`,
accumulating the current part in reverse. -/
def splitSlashAux : List Char → List Char → List (List Char)
  | cur, [] => [cur.reverse]
  | cur, ch :: rest =>
      if ch = '/' then cur.reverse :: splitSlashAux [] rest
      else splitSlashAux (ch :: cur) rest

/-- Python's `symbol.split('/')`: the parts of the string between
occurrences of `'/'` (a string without a slash yields one part). -/
def splitSlash (s : String) : List String :=
  (splitSlashAux [] s.data).map (fun cs => String.mk cs)

/-- An order-book snapshot: the code reads `book['bids'][0][0]` and
`book['asks'][0][0]`; each side is a list of (price, quantity) levels.
`seq` is the sequence/timestamp carried by the snapshot (the spec's
`OrderBookSnapshot.sequence`); the source never inspects it. -/
structure OrderBook where
  bids : List (ℚ × ℚ)
  asks : List (ℚ × ℚ)
  seq : ℕ
deriving DecidableEq

/-- The nested `self.orderbooks` state: exchange → symbol → order book. -/
def Books : Type := List (String × List (String × OrderBook))

/-- A ticker as read by `filter_pairs_by_liquidity`: `quoteVolume`, `bid`,
`ask` may each be missing or non-numeric, modelled as `none`. -/
structure Ticker where
  quoteVolume : Option ℚ
  bid : Option ℚ
  ask : Option ℚ
deriving DecidableEq

/-- One liquidity-filter test (body of the loop of
`filter_pairs_by_liquidity`, src/main.py lines 106-131).  The `Option Ticker`
argument is `none` when the ticker value is falsy (`if not t`).  A symbol
with more than one slash would raise `ValueError` at the unpacking on line
116 of the source; such symbols do not occur in exchange data and are
treated as skipped here. -/
def passes_filter (cfg : Config) (symbol : String) (t : Option Ticker) : Bool :=
  match t with
  | none => false
  | some tk =>
    match tk.quoteVolume with
    | none => false
    | some quote_vol =>
      match splitSlash symbol with
      | [_, quote] =>
        if quote ∈ cfg.quote_currencies then
          if quote_vol < cfg.min_volume_usd then false
          else
            match tk.bid, tk.ask with
            | some bid, some ask =>
              if bid ≤ 0 ∨ ask ≤ 0 then false
              else if (ask - bid) / bid * 100 > cfg.max_spread_percent then false
              else true
            | _, _ => false
        else false
      | _ => false

/-- Per-venue body of `filter_pairs_by_liquidity`: the symbols of one
venue's ticker dict that pass every test (src/main.py lines 106-131). -/
def filteredSymbols (cfg : Config) (ts : List (String × Option Ticker)) : List String :=
  (ts.filter (fun p => passes_filter cfg p.1 p.2)).map (fun p => p.1)

/-- `filter_pairs_by_liquidity` (src/main.py lines 103-133): maps each
venue's tickers to its filtered symbol set. -/
def filter_pairs_by_liquidity (cfg : Config)
    (all_tickers : List (String × List (String × Option Ticker))) :
    List (String × List String) :=
  all_tickers.map (fun p => (p.1, filteredSymbols cfg p.2))

/-- The store-update step of `_watch_book` (src/main.py line 176):
`self.orderbooks[exchange_name][symbol] = book`, with `defaultdict`
semantics for a missing exchange entry. -/
def watch_book_update (st : Books) (exchange_name symbol : String)
    (book : OrderBook) : Books :=
  dictSet st exchange_name (dictSet ((lookupKey st exchange_name).getD []) symbol book)

/-- `self.orderbooks[venue].get(symbol)` as a total read of the store. -/
def getBook (st : Books) (exchange symbol : String) : Option OrderBook :=
  lookupKey ((lookupKey st exchange).getD []) symbol

/-- The argument tuple of an `execute_arbitrage` call
(src/main.py lines 221 and 306-307). -/
structure Trade where
  exchange_buy : String
  exchange_sell : String
  symbol : String
  side_buy : String
  side_sell : String
  price_buy : ℚ
  price_sell : ℚ
  amount : ℚ
deriving DecidableEq

/-- The net-profit computation of src/main.py lines 209-216 (the spec's
`ProfitModel`): cost, revenue, and net percentage (0 if cost is not
positive). -/
def profit_net_pct (ex_buy ex_sell : String) (ask_b bid_a amount : ℚ) : ℚ :=
  let cost := ask_b * amount * (1 + feeOf ex_buy)
  let revenue := bid_a * amount * (1 - feeOf ex_sell)
  if cost > 0 then (revenue - cost) / cost * 100 else 0

/-- The body of the inner pairwise loop (src/main.py lines 198-221) for one
ordered venue pair `(ex_a, ex_b)` with `ex_a` enumerated before `ex_b`:
skip unless A's bids and B's asks are non-empty; compare A's best bid with
B's best ask; emit the `execute_arbitrage` call iff `bid_a > ask_b` and the
net profit percentage reaches the configured minimum. -/
def evalPair (cfg : Config) (symbol ex_a : String) (book_a : OrderBook)
    (ex_b : String) (book_b : OrderBook) : Option Trade :=
  match book_a.bids, book_b.asks with
  | bid_top :: _, ask_top :: _ =>
    let bid_a := bid_top.1
    let ask_b := ask_top.1
    if bid_a > ask_b then
      if profit_net_pct ex_b ex_a ask_b bid_a cfg.trade_amount_btc ≥
          cfg.arbitrage_min_profit_percent then
        some ⟨ex_b, ex_a, symbol, "buy", "sell", ask_b, bid_a, cfg.trade_amount_btc⟩
      else none
    else none
  | _, _ => none

/-- The books collected for one symbol (src/main.py lines 188-191):
every `(venue, book)` whose venue currently stores the symbol, in the
store's insertion order. -/
def booksForSymbol (st : Books) (symbol : String) : List (String × OrderBook) :=
  st.filterMap (fun p => (lookupKey p.2 symbol).map (fun b => (p.1, b)))

/-- The double loop of src/main.py lines 196-221: every ordered pair
`(i, j)` with `i < j` in list order, earlier venue as the sell side. -/
def scanPairs (cfg : Config) (symbol : String) :
    List (String × OrderBook) → List Trade
  | [] => []
  | (ex_a, book_a) :: rest =>
      rest.filterMap (fun p => evalPair cfg symbol ex_a book_a p.1 p.2) ++
        scanPairs cfg symbol rest

/-- `detect_opportunities_for_symbol` (src/main.py lines 186-221), as the
list of `execute_arbitrage` calls it dispatches. -/
def detect_opportunities_for_symbol (cfg : Config) (st : Books)
    (symbol : String) : List Trade :=
  let books := booksForSymbol st symbol
  if books.length < 2 then [] else scanPairs cfg symbol books

/-- `detect_opportunities_for_symbol` viewed as a state transformer: the
source performs no write to `orderbooks` or `filtered_pairs`, so the
resulting state is the input state, paired with the dispatched trades. -/
def detect_step (cfg : Config) (st : Books) (symbol : String) :
    Books × List Trade :=
  (st, detect_opportunities_for_symbol cfg st symbol)

/-- The hard-coded `common_coins` allow-list of
`detect_triangular_opportunities` (src/main.py line 251); the source uses a
set, of which only membership is observed. -/
def common_coins : List String := ["BTC", "ETH", "USDT", "USD", "BNB", "SOL", "ADA"]

/-- The currencies collected from a venue's order-book symbols
(src/main.py lines 236-246): base and quote of every slash-separated
symbol.  The source accumulates them in a set; only membership is
observed, so duplicates are removed. -/
def coinsOf (ex_books : List (String × OrderBook)) : List String :=
  (ex_books.flatMap (fun p =>
    match splitSlash p.1 with
    | [base, quote] => [base, quote]
    | _ => [])).dedup

/-- `coins.intersection(common_coins)` (src/main.py line 252). -/
def coinsAllowed (ex_books : List (String × OrderBook)) : List String :=
  (coinsOf ex_books).filter (fun c => common_coins.contains c)

/-- `_find_pair` (src/main.py lines 274-282): the first stored symbol of the
venue involving the two coins in either order. -/
def find_pair (ex_books : List (String × OrderBook)) (coin1 coin2 : String) :
    Option String :=
  (ex_books.find? (fun p =>
    match splitSlash p.1 with
    | [b, q] => (b == coin1 && q == coin2) || (b == coin2 && q == coin1)
    | _ => false)).map (fun p => p.1)

/-- One evaluated triangle: the coins `a`, `b`, `c` together with the three
edge symbols found by `_find_pair`. -/
structure Tri where
  a : String
  b : String
  c : String
  pab : String
  pbc : String
  pca : String
deriving DecidableEq

/-- Innermost loop body of `detect_triangular_opportunities`
(src/main.py lines 258-272) for fixed `a`, `b`, `c`: skip unless
`b < coin_c` (Python `if coin_c <= coin_b: continue`) and all three
connecting pairs exist. -/
def triangle_inner_c (ex_books : List (String × OrderBook)) (a b c : String) :
    List Tri :=
  if b.data < c.data then
    match find_pair ex_books a b, find_pair ex_books b c, find_pair ex_books c a with
    | some pab, some pbc, some pca => [⟨a, b, c, pab, pbc, pca⟩]
    | _, _, _ => []
  else []

/-- Middle loop body (src/main.py lines 255-257): skip unless `a < b`
(Python `if coin_a >= coin_b: continue`). -/
def triangle_inner_b (ex_books : List (String × OrderBook)) (coins : List String)
    (a b : String) : List Tri :=
  if a.data < b.data then coins.flatMap (triangle_inner_c ex_books a b) else []

/-- The triple enumeration of `detect_triangular_opportunities`
(src/main.py lines 223-272): the list of coin triples, with their connecting
pairs, that reach the `_evaluate_triangle` call. -/
def triangleCandidates (ex_books : List (String × OrderBook)) : List Tri :=
  if ex_books.length < 3 then []
  else
    (coinsAllowed ex_books).flatMap (fun a =>
      (coinsAllowed ex_books).flatMap (triangle_inner_b ex_books (coinsAllowed ex_books) a))

/-- A triangular opportunity as the spec's `Opportunity` for the
triangular detector: venue, the three legs, and the net percentage. -/
structure TriOpp where
  venue : String
  a : String
  b : String
  c : String
  net_pct : ℚ
deriving DecidableEq

/-- Modelled from the spec: the conversion factor across an edge, §4.4 —
"for each edge X–Y, the conversion factor from X to Y is bestBid(edge) if X
is the edge's base currency (selling X), or 1/bestAsk(edge) if X is the
quote currency (buying X with Y)"; the snapshot must be non-empty.  The
source's `_evaluate_triangle` (src/main.py lines 284-301) is an explicit
placeholder that only logs the triangle, so this computation is absent from
the source. -/
def edgeFactor (fromCoin : String) (sym : String) (book : OrderBook) : Option ℚ :=
  match splitSlash sym with
  | [base, _] =>
    match book.bids, book.asks with
    | bid_top :: _, ask_top :: _ =>
      some (if fromCoin = base then bid_top.1 else 1 / ask_top.1)
    | _, _ => none
  | _ => none

/-- Modelled from the spec: the triangle evaluation of §4.4, absent from the
source (`_evaluate_triangle`, src/main.py lines 284-301, is a placeholder
that fetches the three books and only logs).  Books are fetched from the
venue's store as in the source; then, following the spec's words: the
round-trip multiplier is the product of the three conversion factors
reduced by the three applicable trading fees; net% = (multiplier − 1)×100
minus the cumulative fee%; an opportunity is emitted iff net% reaches the
minimum profit threshold. -/
def evaluateTriangle (cfg : Config) (venue : String) (t : Tri)
    (ex_books : List (String × OrderBook)) : Option TriOpp :=
  match lookupKey ex_books t.pab, lookupKey ex_books t.pbc, lookupKey ex_books t.pca with
  | some book_ab, some book_bc, some book_ca =>
    match edgeFactor t.a t.pab book_ab, edgeFactor t.b t.pbc book_bc,
        edgeFactor t.c t.pca book_ca with
    | some f1, some f2, some f3 =>
      let fee := feeOf venue
      let multiplier := f1 * (1 - fee) * (f2 * (1 - fee)) * (f3 * (1 - fee))
      let net_pct := (multiplier - 1) * 100 - (fee + fee + fee) * 100
      if net_pct ≥ cfg.arbitrage_min_profit_percent then
        some ⟨venue, t.a, t.b, t.c, net_pct⟩
      else none
    | _, _, _ => none
  | _, _, _ => none

/-- `detect_triangular_opportunities` (src/main.py lines 223-272) with the
triangle evaluation modelled from the spec: the opportunities emitted for
one venue's scan. -/
def detect_triangular_opportunities (cfg : Config) (venue : String)
    (ex_books : List (String × OrderBook)) : List TriOpp :=
  (triangleCandidates ex_books).filterMap (fun t => evaluateTriangle cfg venue t ex_books)

/-! Concrete inputs used to instantiate the theorems below. -/

/-- Book of venue `vA` in the spec's pairwise example: best bid 101. -/
def book_a_ex : OrderBook := ⟨[(101, 1)], [(103, 1)], 0⟩

/-- Book of venue `vB` in the spec's pairwise example: best ask 100. -/
def book_b_ex : OrderBook := ⟨[(99, 1)], [(100, 1)], 0⟩

/-- Store holding the spec's pairwise example on two venues with the
default 0.1% fee. -/
def st_ex : Books := [("vA", [("X/USDT", book_a_ex)]), ("vB", [("X/USDT", book_b_ex)])]

/-- `CONFIG` with the minimum-profit threshold raised to 1%. -/
def CONFIG_1pct : Config := { CONFIG with arbitrage_min_profit_percent := 1 }

/-- The trade dispatched on `st_ex`. -/
def trade_ex : Trade := ⟨"vB", "vA", "X/USDT", "buy", "sell", 100, 101, 1/100⟩

/-- First-enumerated venue's book: best bid 100, best ask 100.5. -/
def book_v1 : OrderBook := ⟨[(100, 1)], [(201/2, 1)], 0⟩

/-- Second-enumerated venue's book: best bid 102, best ask 102.5. -/
def book_v2 : OrderBook := ⟨[(102, 1)], [(205/2, 1)], 0⟩

/-- A store where only the swapped direction (buy on `v1`, sell on `v2`)
is profitable: bestBid(v2) = 102 > bestAsk(v1) = 100.5. -/
def st_rev : Books := [("v1", [("X/USDT", book_v1)]), ("v2", [("X/USDT", book_v2)])]

/-- A store where only one venue holds a book for the symbol. -/
def st_single : Books := [("v1", [("X/USDT", book_v1)])]

/-- A stored snapshot with sequence 5. -/
def book_seq5 : OrderBook := ⟨[(1, 1)], [(2, 1)], 5⟩

/-- An incoming, older snapshot with sequence 3. -/
def book_seq3 : OrderBook := ⟨[(1, 1)], [(2, 1)], 3⟩

/-- Store holding the sequence-5 snapshot for key `("v", "s")`. -/
def st_seq : Books := [("v", [("s", book_seq5)])]

/-- A liquid ticker whose spread is exactly the configured maximum:
(201 − 200)/200 × 100 = 0.5. -/
def ticker_edge : Ticker := ⟨some 2000000, some 200, some 201⟩

/-- One-venue ticker input containing only `ticker_edge`. -/
def ts_edge : List (String × Option Ticker) := [("AAA/USDT", some ticker_edge)]

/-- A ticker whose quote volume 5 is far below the configured minimum. -/
def ticker_thin : Ticker := ⟨some 5, some 200, some 201⟩

/-- One-venue ticker input containing only `ticker_thin`. -/
def ts_thin : List (String × Option Ticker) := [("BBB/USDT", some ticker_thin)]

/-- ETH/BTC book: best ask 0.05 BTC per ETH. -/
def book_tri_ab : OrderBook := ⟨[(1, 1)], [(1/20, 1)], 0⟩

/-- ETH/USDT book: best bid 2000. -/
def book_tri_bc : OrderBook := ⟨[(2000, 1)], [(2001, 1)], 0⟩

/-- BTC/USDT book: best ask 30000. -/
def book_tri_ca : OrderBook := ⟨[(29990, 1)], [(30000, 1)], 0⟩

/-- A venue's books forming the triangle BTC–ETH–USDT. -/
def ex_books_tri : List (String × OrderBook) :=
  [("ETH/BTC", book_tri_ab), ("ETH/USDT", book_tri_bc), ("BTC/USDT", book_tri_ca)]

/-- The single triangle candidate found on `ex_books_tri`. -/
def tri_ex : Tri := ⟨"BTC", "ETH", "USDT", "ETH/BTC", "ETH/USDT", "BTC/USDT"⟩

/-! Helper lemmas. -/

theorem lookupKey_dictSet_self {α : Type} (l : List (String × α)) (k : String) (v : α) :
    lookupKey (dictSet l k v) k = some v := by
  induction l with
  | nil => simp [dictSet, lookupKey]
  | cons p rest ih =>
    by_cases h : p.1 = k
    · simp [dictSet, h, lookupKey]
    · simp [dictSet, h, lookupKey, ih]

theorem feeOf_of_ne (ex : String) (h1 : ex ≠ "binance") (h2 : ex ≠ "kraken")
    (h3 : ex ≠ "coinbase") : feeOf ex = 1/1000 := by
  simp [feeOf, lookupKey, FEES, Ne.symm h1, Ne.symm h2, Ne.symm h3]

theorem mem_keyVal_unique {α : Type} {l : List (String × α)}
    (hnd : (l.map (fun p => p.1)).Nodup) {k : String} {v w : α}
    (hv : (k, v) ∈ l) (hw : (k, w) ∈ l) : v = w := by
  induction l with
  | nil => cases hv
  | cons p rest ih =>
    simp only [List.map_cons, List.nodup_cons, List.mem_map] at hnd
    rcases List.mem_cons.1 hv with hv1 | hv2 <;> rcases List.mem_cons.1 hw with hw1 | hw2
    · rw [← hv1] at hw1; exact congrArg Prod.snd hw1.symm
    · exact absurd ⟨(k, w), hw2, by rw [← hv1]⟩ hnd.1
    · exact absurd ⟨(k, v), hv2, by rw [← hw1]⟩ hnd.1
    · exact ih hnd.2 hv2 hw2

theorem mem_filteredSymbols {cfg : Config} {ts : List (String × Option Ticker)}
    {symbol : String} :
    symbol ∈ filteredSymbols cfg ts ↔
      ∃ o, (symbol, o) ∈ ts ∧ passes_filter cfg symbol o = true := by
  constructor
  · intro h
    rcases List.mem_map.1 h with ⟨p, hp, hps⟩
    rcases List.mem_filter.1 hp with ⟨hmem, hpass⟩
    exact ⟨p.2, by rw [← hps]; exact hmem, by rwa [← hps]⟩
  · rintro ⟨o, hmem, hpass⟩
    exact List.mem_map.2 ⟨(symbol, o), List.mem_filter.2 ⟨hmem, hpass⟩, rfl⟩

/-! Claim C7: the liquidity filter is deterministic and pure. -/

/-- C7: `filter_pairs_by_liquidity` is a pure function of exactly the ticker
input and the configuration: runs on equal inputs yield equal per-venue
filtered sets (the embedding takes no other argument, mirroring the source,
which reads only `all_tickers` and `self.config`). -/
theorem filter_pairs_deterministic (cfg₁ cfg₂ : Config)
    (t₁ t₂ : List (String × List (String × Option Ticker)))
    (hc : cfg₁ = cfg₂) (ht : t₁ = t₂) :
    filter_pairs_by_liquidity cfg₁ t₁ = filter_pairs_by_liquidity cfg₂ t₂ := by
  subst hc; subst ht; rfl

/-- Witness for C7 at a concrete input. -/
theorem filter_pairs_deterministic_witness :
    filter_pairs_by_liquidity CONFIG [("binance", ts_edge)] =
      filter_pairs_by_liquidity CONFIG [("binance", ts_edge)] :=
  filter_pairs_deterministic CONFIG CONFIG _ _ rfl rfl

/-! Claim C9: fewer than two venues with a book means no effect. -/

/-- C9: when fewer than two venues hold an order book for the symbol,
`detect_opportunities_for_symbol` dispatches no trade (so no execution is
called) and the stored state is unchanged. -/
theorem detect_few_books_no_effect (cfg : Config) (st : Books) (symbol : String)
    (h : (booksForSymbol st symbol).length < 2) :
    detect_step cfg st symbol = (st, []) := by
  simp only [detect_step, detect_opportunities_for_symbol]
  rw [if_pos h]

/-- Witness for C9: a store where a single venue holds the symbol. -/
theorem detect_few_books_no_effect_witness :
    detect_step CONFIG st_single "X/USDT" = (st_single, []) :=
  detect_few_books_no_effect CONFIG st_single "X/USDT" (by decide)

/-! Claim C3: order-book updates and snapshot staleness. -/

/-- C3 counterexample: the store-update step of `_watch_book` performs no
staleness check, so applying an incoming snapshot with sequence 3 over a
stored snapshot with sequence 5 replaces it and the stored sequence
decreases, contradicting per-key monotonicity. -/
theorem watch_book_not_monotonic :
    (getBook st_seq "v" "s").map OrderBook.seq = some 5 ∧
    (getBook (watch_book_update st_seq "v" "s" book_seq3) "v" "s").map OrderBook.seq =
      some 3 ∧
    ¬ 5 ≤ 3 := by
  exact ⟨by decide, by decide, by decide⟩

/-- C3 amended: an order-book update unconditionally replaces the stored
snapshot for its (venue, symbol) key — the stored snapshot is always the
most recently received one, with no comparison of sequence or timestamp. -/
theorem watch_book_update_stores (st : Books) (venue symbol : String)
    (book : OrderBook) :
    getBook (watch_book_update st venue symbol book) venue symbol = some book := by
  unfold getBook watch_book_update
  rw [lookupKey_dictSet_self, Option.getD_some, lookupKey_dictSet_self]

/-! Claim C4: the net-profit formula and the worked example. -/

/-- C4: pairwise net profit is cost = ask×amount×(1+feeBuy),
revenue = bid×amount×(1−feeSell), net% = (revenue−cost)/cost×100, and 0
when cost ≤ 0.  At bestBid(A) = 101, bestAsk(B) = 100, 0.1% fees on both
venues and amount 0.01: cost = 1.001, revenue = 1.00899,
net% = 799/1001 ≈ 0.799% (within 0.001); the opportunity is emitted at
threshold 0.2% (`CONFIG`) and not at threshold 1% (`CONFIG_1pct`). -/
theorem profit_model_example :
    (∀ ex_buy ex_sell : String, ∀ ask_b bid_a amount : ℚ,
        0 < ask_b * amount * (1 + feeOf ex_buy) →
        profit_net_pct ex_buy ex_sell ask_b bid_a amount =
          (bid_a * amount * (1 - feeOf ex_sell) - ask_b * amount * (1 + feeOf ex_buy)) /
            (ask_b * amount * (1 + feeOf ex_buy)) * 100) ∧
    (∀ ex_buy ex_sell : String, ∀ ask_b bid_a amount : ℚ,
        ask_b * amount * (1 + feeOf ex_buy) ≤ 0 →
        profit_net_pct ex_buy ex_sell ask_b bid_a amount = 0) ∧
    (100 : ℚ) * (1/100) * (1 + feeOf "vB") = 1001/1000 ∧
    (101 : ℚ) * (1/100) * (1 - feeOf "vA") = 100899/100000 ∧
    profit_net_pct "vB" "vA" 100 101 (1/100) = 799/1001 ∧
    |(799/1001 : ℚ) - 799/1000| < 1/1000 ∧
    CONFIG.arbitrage_min_profit_percent = 1/5 ∧
    CONFIG_1pct.arbitrage_min_profit_percent = 1 ∧
    detect_opportunities_for_symbol CONFIG st_ex "X/USDT" = [trade_ex] ∧
    detect_opportunities_for_symbol CONFIG_1pct st_ex "X/USDT" = [] := by
  refine ⟨?_, ?_, ?_, ?_, ?_, ?_, rfl, rfl, ?_, ?_⟩
  · intro ex_buy ex_sell ask_b bid_a amount h
    simp only [profit_net_pct]
    rw [if_pos h]
  · intro ex_buy ex_sell ask_b bid_a amount h
    simp only [profit_net_pct]
    rw [if_neg (not_lt.2 h)]
  · rw [feeOf_of_ne "vB" (by decide) (by decide) (by decide)]; norm_num
  · rw [feeOf_of_ne "vA" (by decide) (by decide) (by decide)]; norm_num
  · simp only [profit_net_pct, feeOf_of_ne "vA" (by decide) (by decide) (by decide),
      feeOf_of_ne "vB" (by decide) (by decide) (by decide)]
    norm_num
  · rw [abs_lt]; constructor <;> norm_num
  · simp [detect_opportunities_for_symbol, booksForSymbol, scanPairs, evalPair,
      profit_net_pct, lookupKey, st_ex, book_a_ex, book_b_ex, CONFIG, feeOf, FEES,
      trade_ex, List.filterMap_cons, List.filterMap_nil]
    norm_num
  · simp [detect_opportunities_for_symbol, booksForSymbol, scanPairs, evalPair,
      profit_net_pct, lookupKey, st_ex, book_a_ex, book_b_ex, CONFIG_1pct, CONFIG,
      feeOf, FEES, List.filterMap_cons, List.filterMap_nil]
    norm_num

/-- Witness for C4's hypothesised conjuncts, applied at concrete inputs:
the zero-cost branch at a negative ask and the positive-cost branch. -/
theorem profit_model_example_witness :
    profit_net_pct "q" "r" (-1) 5 1 = 0 ∧
    profit_net_pct "q" "r" 2 5 1 =
      (5 * 1 * (1 - feeOf "r") - 2 * 1 * (1 + feeOf "q")) /
        (2 * 1 * (1 + feeOf "q")) * 100 := by
  constructor
  · exact profit_model_example.2.1 "q" "r" (-1) 5 1
      (by rw [feeOf_of_ne "q" (by decide) (by decide) (by decide)]; norm_num)
  · exact profit_model_example.1 "q" "r" 2 5 1
      (by rw [feeOf_of_ne "q" (by decide) (by decide) (by decide)]; norm_num)

/-! Claims C6 and C8: the liquidity filter's spread boundary and
minimum-volume rejection. -/

theorem passes_filter_eval {cfg : Config} {symbol : String} {t : Ticker}
    {qv bid ask : ℚ} {base quote : String}
    (hqv : t.quoteVolume = some qv) (hvol : ¬ qv < cfg.min_volume_usd)
    (hsplit : splitSlash symbol = [base, quote]) (hq : quote ∈ cfg.quote_currencies)
    (hbid : t.bid = some bid) (hask : t.ask = some ask)
    (hb : 0 < bid) (ha : 0 < ask) :
    passes_filter cfg symbol (some t) =
      ! decide ((ask - bid) / bid * 100 > cfg.max_spread_percent) := by
  simp only [passes_filter, hqv, hsplit, hbid, hask]
  rw [if_pos hq, if_neg hvol, if_neg (by push_neg; exact ⟨hb, ha⟩)]
  by_cases hgt : (ask - bid) / bid * 100 > cfg.max_spread_percent
  · rw [if_pos hgt, decide_eq_true hgt, Bool.not_true]
  · rw [if_neg hgt, decide_eq_false hgt, Bool.not_false]

/-- C6: under the other filter conditions, a symbol whose spread% equals
the configured maximum is kept in the filtered set, while a symbol whose
spread% exceeds it is rejected (for the rejection the symbol's ticker
entry is unique, as Python dict keys are). -/
theorem spread_boundary (cfg : Config) (ts : List (String × Option Ticker))
    (symbol : String) (t : Ticker) (qv bid ask : ℚ) (base quote : String)
    (hmem : (symbol, some t) ∈ ts)
    (hqv : t.quoteVolume = some qv) (hvol : ¬ qv < cfg.min_volume_usd)
    (hsplit : splitSlash symbol = [base, quote]) (hq : quote ∈ cfg.quote_currencies)
    (hbid : t.bid = some bid) (hask : t.ask = some ask)
    (hb : 0 < bid) (ha : 0 < ask) :
    ((ask - bid) / bid * 100 = cfg.max_spread_percent →
      symbol ∈ filteredSymbols cfg ts) ∧
    ((ts.map (fun p => p.1)).Nodup →
      (ask - bid) / bid * 100 > cfg.max_spread_percent →
      symbol ∉ filteredSymbols cfg ts) := by
  constructor
  · intro heq
    refine mem_filteredSymbols.2 ⟨some t, hmem, ?_⟩
    rw [passes_filter_eval hqv hvol hsplit hq hbid hask hb ha]
    rw [decide_eq_false (by rw [heq]; exact lt_irrefl _), Bool.not_false]
  · intro hnd hgt hin
    rcases mem_filteredSymbols.1 hin with ⟨o, homem, hpass⟩
    have : o = some t := mem_keyVal_unique hnd homem hmem
    rw [this, passes_filter_eval hqv hvol hsplit hq hbid hask hb ha,
      decide_eq_true hgt, Bool.not_true] at hpass
    cases hpass

/-- Witness for C6: the boundary ticker with spread exactly 0.5% is kept. -/
theorem spread_boundary_witness : "AAA/USDT" ∈ filteredSymbols CONFIG ts_edge := by
  have h := spread_boundary CONFIG ts_edge "AAA/USDT" ticker_edge 2000000 200 201
    "AAA" "USDT" (List.mem_cons_self _ _) rfl (by norm_num [CONFIG]) (by decide)
    (by decide) rfl rfl (by norm_num) (by norm_num)
  exact h.1 (by norm_num [CONFIG])

theorem passes_filter_low_volume {cfg : Config} {symbol : String} {t : Ticker}
    {qv : ℚ} (hqv : t.quoteVolume = some qv) (hlow : qv < cfg.min_volume_usd) :
    passes_filter cfg symbol (some t) = false := by
  simp only [passes_filter, hqv]
  split
  · rename_i base quote heq
    by_cases hq : quote ∈ cfg.quote_currencies
    · rw [if_pos hq, if_pos hlow]
    · rw [if_neg hq]
  · rfl

/-- C8: a symbol whose quote volume is below the configured minimum never
appears in the venue's filtered set (symbol keys are unique, as Python
dict keys are); this holds for every venue since each venue's set is
computed by the same per-venue function. -/
theorem low_volume_excluded (cfg : Config) (ts : List (String × Option Ticker))
    (symbol : String) (t : Ticker) (qv : ℚ)
    (hmem : (symbol, some t) ∈ ts)
    (hqv : t.quoteVolume = some qv) (hlow : qv < cfg.min_volume_usd)
    (hnd : (ts.map (fun p => p.1)).Nodup) :
    symbol ∉ filteredSymbols cfg ts := by
  intro hin
  rcases mem_filteredSymbols.1 hin with ⟨o, homem, hpass⟩
  have : o = some t := mem_keyVal_unique hnd homem hmem
  rw [this, passes_filter_low_volume hqv hlow] at hpass
  cases hpass

/-- Witness for C8: a 5-volume ticker is excluded. -/
theorem low_volume_excluded_witness : "BBB/USDT" ∉ filteredSymbols CONFIG ts_thin :=
  low_volume_excluded CONFIG ts_thin "BBB/USDT" ticker_thin 5
    (List.mem_cons_self _ _) rfl (by norm_num [CONFIG]) (by decide)

/-! Claim C2: the pairwise detector and pair directions. -/

/-- C2 counterexample: on `st_rev`, bestBid(v2) = 102 exceeds
bestAsk(v1) = 100.5 and the buy-on-v1/sell-on-v2 direction clears the
0.2% threshold, yet the detector dispatches nothing: only the direction
bestBid(v1) > bestAsk(v2) is ever tested, so the claim that both
directions of every venue pair are tested is false. -/
theorem pairwise_misses_swapped_direction :
    (102 : ℚ) > 201/2 ∧
    profit_net_pct "v1" "v2" (201/2) 102 CONFIG.trade_amount_btc ≥
      CONFIG.arbitrage_min_profit_percent ∧
    detect_opportunities_for_symbol CONFIG st_rev "X/USDT" = [] := by
  refine ⟨by norm_num, ?_, ?_⟩
  · simp only [profit_net_pct, feeOf_of_ne "v1" (by decide) (by decide) (by decide),
      feeOf_of_ne "v2" (by decide) (by decide) (by decide), CONFIG]
    norm_num
  · simp [detect_opportunities_for_symbol, booksForSymbol, scanPairs, evalPair,
      profit_net_pct, lookupKey, st_rev, book_v1, book_v2, CONFIG, feeOf, FEES,
      List.filterMap_cons, List.filterMap_nil]
    norm_num

/-! Claim C10: every dispatched pairwise trade is justified. -/

theorem evalPair_eq_some {cfg : Config} {symbol ex_a : String} {book_a : OrderBook}
    {ex_b : String} {book_b : OrderBook} {t : Trade}
    (h : evalPair cfg symbol ex_a book_a ex_b book_b = some t) :
    ∃ bid_top ask_top : ℚ × ℚ,
      book_a.bids.head? = some bid_top ∧ book_b.asks.head? = some ask_top ∧
      bid_top.1 > ask_top.1 ∧
      profit_net_pct ex_b ex_a ask_top.1 bid_top.1 cfg.trade_amount_btc ≥
        cfg.arbitrage_min_profit_percent ∧
      t = ⟨ex_b, ex_a, symbol, "buy", "sell", ask_top.1, bid_top.1,
        cfg.trade_amount_btc⟩ := by
  simp only [evalPair] at h
  split at h
  · rename_i bid_top bids ask_top asks hb ha
    split_ifs at h with h1 h2
    cases h
    exact ⟨bid_top, ask_top, by rw [hb]; rfl, by rw [ha]; rfl, h1, h2, rfl⟩
  · cases h

theorem mem_scanPairs {cfg : Config} {symbol : String} :
    ∀ {books : List (String × OrderBook)} {t : Trade}, t ∈ scanPairs cfg symbol books →
    ∃ ex_a book_a ex_b book_b, (ex_a, book_a) ∈ books ∧ (ex_b, book_b) ∈ books ∧
      evalPair cfg symbol ex_a book_a ex_b book_b = some t := by
  intro books
  induction books with
  | nil => intro t ht; cases ht
  | cons p rest ih =>
    obtain ⟨ex_a, book_a⟩ := p
    intro t ht
    simp only [scanPairs] at ht
    rcases List.mem_append.1 ht with h1 | h2
    · rcases List.mem_filterMap.1 h1 with ⟨q, hq, he⟩
      exact ⟨ex_a, book_a, q.1, q.2, List.mem_cons_self _ _,
        List.mem_cons_of_mem _ hq, he⟩
    · rcases ih h2 with ⟨xa, ba, xb, bb, hma, hmb, he⟩
      exact ⟨xa, ba, xb, bb, List.mem_cons_of_mem _ hma,
        List.mem_cons_of_mem _ hmb, he⟩

/-- C10: every trade dispatched by the pairwise detector satisfies: the
sell price (the sell venue's best bid) strictly exceeds the buy price (the
buy venue's best ask), both venues' relevant book sides are non-empty, and
the net profit percentage reaches the configured minimum. -/
theorem dispatch_invariant (cfg : Config) (st : Books) (symbol : String) (t : Trade)
    (ht : t ∈ detect_opportunities_for_symbol cfg st symbol) :
    t.price_sell > t.price_buy ∧
    profit_net_pct t.exchange_buy t.exchange_sell t.price_buy t.price_sell
      cfg.trade_amount_btc ≥ cfg.arbitrage_min_profit_percent ∧
    ∃ book_s book_b : OrderBook,
      (t.exchange_sell, book_s) ∈ booksForSymbol st symbol ∧
      (t.exchange_buy, book_b) ∈ booksForSymbol st symbol ∧
      book_s.bids ≠ [] ∧ book_b.asks ≠ [] ∧
      book_s.bids.head?.map Prod.fst = some t.price_sell ∧
      book_b.asks.head?.map Prod.fst = some t.price_buy := by
  simp only [detect_opportunities_for_symbol] at ht
  by_cases hlen : (booksForSymbol st symbol).length < 2
  · rw [if_pos hlen] at ht; cases ht
  · rw [if_neg hlen] at ht
    rcases mem_scanPairs ht with ⟨ex_a, book_a, ex_b, book_b, hma, hmb, he⟩
    rcases evalPair_eq_some he with ⟨bid_top, ask_top, hh1, hh2, hgt, hpct, hteq⟩
    subst hteq
    refine ⟨hgt, hpct, book_a, book_b, hma, hmb, ?_, ?_, ?_, ?_⟩
    · intro hnil; rw [hnil] at hh1; cases hh1
    · intro hnil; rw [hnil] at hh2; cases hh2
    · rw [hh1]; rfl
    · rw [hh2]; rfl

/-- Witness for C10 at the dispatched trade of `st_ex`. -/
theorem dispatch_invariant_witness :
    trade_ex.price_sell > trade_ex.price_buy ∧
    profit_net_pct trade_ex.exchange_buy trade_ex.exchange_sell trade_ex.price_buy
      trade_ex.price_sell CONFIG.trade_amount_btc ≥
      CONFIG.arbitrage_min_profit_percent ∧
    ∃ book_s book_b : OrderBook,
      (trade_ex.exchange_sell, book_s) ∈ booksForSymbol st_ex "X/USDT" ∧
      (trade_ex.exchange_buy, book_b) ∈ booksForSymbol st_ex "X/USDT" ∧
      book_s.bids ≠ [] ∧ book_b.asks ≠ [] ∧
      book_s.bids.head?.map Prod.fst = some trade_ex.price_sell ∧
      book_b.asks.head?.map Prod.fst = some trade_ex.price_buy := by
  have hd : detect_opportunities_for_symbol CONFIG st_ex "X/USDT" = [trade_ex] := by
    simp [detect_opportunities_for_symbol, booksForSymbol, scanPairs, evalPair,
      profit_net_pct, lookupKey, st_ex, book_a_ex, book_b_ex, CONFIG, feeOf, FEES,
      trade_ex, List.filterMap_cons, List.filterMap_nil]
    norm_num
  exact dispatch_invariant CONFIG st_ex "X/USDT" trade_ex
    (by rw [hd]; exact List.mem_cons_self _ _)

/-! Claim C2 (amended statement): the detector's single tested direction,
for any number of venues holding the symbol. -/

theorem evalPair_some_intro {cfg : Config} {symbol ex_a : String}
    {book_a : OrderBook} {ex_b : String} {book_b : OrderBook}
    {bid_top ask_top : ℚ × ℚ}
    (hb : book_a.bids.head? = some bid_top) (ha : book_b.asks.head? = some ask_top)
    (hgt : bid_top.1 > ask_top.1)
    (hpct : profit_net_pct ex_b ex_a ask_top.1 bid_top.1 cfg.trade_amount_btc ≥
      cfg.arbitrage_min_profit_percent) :
    evalPair cfg symbol ex_a book_a ex_b book_b =
      some ⟨ex_b, ex_a, symbol, "buy", "sell", ask_top.1, bid_top.1,
        cfg.trade_amount_btc⟩ := by
  rcases hbb : book_a.bids with _ | ⟨b0, brest⟩
  · rw [hbb] at hb; cases hb
  rcases haa : book_b.asks with _ | ⟨a0, arest⟩
  · rw [haa] at ha; cases ha
  rw [hbb] at hb; rw [haa] at ha
  have hb0 : b0 = bid_top := by injection hb
  have ha0 : a0 = ask_top := by injection ha
  subst hb0; subst ha0
  simp only [evalPair, hbb, haa]
  rw [if_pos hgt, if_pos hpct]

theorem scanPairs_mem_of_get {cfg : Config} {symbol : String} :
    ∀ (books : List (String × OrderBook)) (i j : ℕ) (hij : i < j)
      (hj : j < books.length) (t : Trade),
    evalPair cfg symbol (books.get ⟨i, Nat.lt_trans hij hj⟩).1
      (books.get ⟨i, Nat.lt_trans hij hj⟩).2
      (books.get ⟨j, hj⟩).1 (books.get ⟨j, hj⟩).2 = some t →
    t ∈ scanPairs cfg symbol books := by
  intro books
  induction books with
  | nil => intro i j hij hj t h; exact absurd hj (Nat.not_lt_zero _)
  | cons p rest ih =>
    obtain ⟨ex_a, book_a⟩ := p
    intro i j hij hj t h
    cases i with
    | zero =>
      cases j with
      | zero => exact absurd hij (lt_irrefl 0)
      | succ j' =>
        simp only [scanPairs]
        apply List.mem_append_left
        refine List.mem_filterMap.2
          ⟨rest.get ⟨j', Nat.lt_of_succ_lt_succ hj⟩, List.get_mem _ _ _, ?_⟩
        exact h
    | succ i' =>
      cases j with
      | zero => exact absurd hij (Nat.not_lt_zero _)
      | succ j' =>
        simp only [scanPairs]
        apply List.mem_append_right
        exact ih i' j' (Nat.lt_of_succ_lt_succ hij) (Nat.lt_of_succ_lt_succ hj) t h

theorem mem_scanPairs_get {cfg : Config} {symbol : String} :
    ∀ (books : List (String × OrderBook)) (t : Trade), t ∈ scanPairs cfg symbol books →
    ∃ i j : ℕ, ∃ hij : i < j, ∃ hj : j < books.length,
      evalPair cfg symbol (books.get ⟨i, Nat.lt_trans hij hj⟩).1
        (books.get ⟨i, Nat.lt_trans hij hj⟩).2
        (books.get ⟨j, hj⟩).1 (books.get ⟨j, hj⟩).2 = some t := by
  intro books
  induction books with
  | nil => intro t ht; cases ht
  | cons p rest ih =>
    obtain ⟨ex_a, book_a⟩ := p
    intro t ht
    simp only [scanPairs] at ht
    rcases List.mem_append.1 ht with h1 | h2
    · rcases List.mem_filterMap.1 h1 with ⟨q, hq, he⟩
      rcases List.mem_iff_get.1 hq with ⟨k, hk⟩
      rcases k with ⟨kv, hkv⟩
      refine ⟨0, kv + 1, Nat.succ_pos _, Nat.succ_lt_succ hkv, ?_⟩
      show evalPair cfg symbol ex_a book_a (rest.get ⟨kv, hkv⟩).1
        (rest.get ⟨kv, hkv⟩).2 = some t
      rw [hk]
      exact he
    · rcases ih t h2 with ⟨i, j, hij, hj, he⟩
      exact ⟨i + 1, j + 1, Nat.succ_lt_succ hij, Nat.succ_lt_succ hj, he⟩

/-- C2 amended: for every symbol and store — in particular whenever at
least two venues hold a book for the symbol — the detector tests, for each
venue pair, only the single direction selling on the earlier-enumerated
venue (index `i`) and buying on the later venue (index `j > i`): whenever
that direction has bestBid(earlier) > bestAsk(later) and net% at least the
minimum, its trade is dispatched (first conjunct); and every dispatched
trade arises from such an ordered pair, its sell venue enumerated before
its buy venue, with those same conditions holding (second conjunct) — so
the swapped direction of a pair is never tested or dispatched. -/
theorem pairwise_single_direction (cfg : Config) (st : Books) (symbol : String) :
    (∀ i j : ℕ, ∀ hij : i < j, ∀ hj : j < (booksForSymbol st symbol).length,
      ∀ bid_top ask_top : ℚ × ℚ,
      ((booksForSymbol st symbol).get ⟨i, Nat.lt_trans hij hj⟩).2.bids.head? =
        some bid_top →
      ((booksForSymbol st symbol).get ⟨j, hj⟩).2.asks.head? = some ask_top →
      bid_top.1 > ask_top.1 →
      profit_net_pct ((booksForSymbol st symbol).get ⟨j, hj⟩).1
          ((booksForSymbol st symbol).get ⟨i, Nat.lt_trans hij hj⟩).1
          ask_top.1 bid_top.1 cfg.trade_amount_btc ≥
        cfg.arbitrage_min_profit_percent →
      (⟨((booksForSymbol st symbol).get ⟨j, hj⟩).1,
        ((booksForSymbol st symbol).get ⟨i, Nat.lt_trans hij hj⟩).1,
        symbol, "buy", "sell", ask_top.1, bid_top.1, cfg.trade_amount_btc⟩ : Trade) ∈
          detect_opportunities_for_symbol cfg st symbol) ∧
    (∀ t ∈ detect_opportunities_for_symbol cfg st symbol,
      ∃ i j : ℕ, ∃ hij : i < j, ∃ hj : j < (booksForSymbol st symbol).length,
        ((booksForSymbol st symbol).get ⟨i, Nat.lt_trans hij hj⟩).1 =
          t.exchange_sell ∧
        ((booksForSymbol st symbol).get ⟨j, hj⟩).1 = t.exchange_buy ∧
        ∃ bid_top ask_top : ℚ × ℚ,
          ((booksForSymbol st symbol).get ⟨i, Nat.lt_trans hij hj⟩).2.bids.head? =
            some bid_top ∧
          ((booksForSymbol st symbol).get ⟨j, hj⟩).2.asks.head? = some ask_top ∧
          bid_top.1 = t.price_sell ∧ ask_top.1 = t.price_buy ∧
          bid_top.1 > ask_top.1 ∧
          profit_net_pct t.exchange_buy t.exchange_sell ask_top.1 bid_top.1
            cfg.trade_amount_btc ≥ cfg.arbitrage_min_profit_percent) := by
  constructor
  · intro i j hij hj bid_top ask_top hb ha hgt hpct
    have hlen : ¬ (booksForSymbol st symbol).length < 2 := by
      intro hcon
      have := Nat.lt_trans hij hj
      omega
    simp only [detect_opportunities_for_symbol]
    rw [if_neg hlen]
    exact scanPairs_mem_of_get (booksForSymbol st symbol) i j hij hj _
      (evalPair_some_intro hb ha hgt hpct)
  · intro t ht
    simp only [detect_opportunities_for_symbol] at ht
    by_cases hlen : (booksForSymbol st symbol).length < 2
    · rw [if_pos hlen] at ht; cases ht
    · rw [if_neg hlen] at ht
      rcases mem_scanPairs_get (booksForSymbol st symbol) t ht with ⟨i, j, hij, hj, he⟩
      rcases evalPair_eq_some he with ⟨bid_top, ask_top, hh1, hh2, hgt, hpct, hteq⟩
      subst hteq
      exact ⟨i, j, hij, hj, rfl, rfl, bid_top, ask_top, hh1, hh2, rfl, rfl, hgt, hpct⟩

/-- Witness for C2's amended theorem: the trade dispatched on the example
store `st_ex` comes from an ordered venue pair whose sell venue is
enumerated before its buy venue, with the single tested direction
profitable. -/
theorem pairwise_single_direction_witness :
    ∃ i j : ℕ, ∃ hij : i < j, ∃ hj : j < (booksForSymbol st_ex "X/USDT").length,
      ((booksForSymbol st_ex "X/USDT").get ⟨i, Nat.lt_trans hij hj⟩).1 =
        trade_ex.exchange_sell ∧
      ((booksForSymbol st_ex "X/USDT").get ⟨j, hj⟩).1 = trade_ex.exchange_buy ∧
      ∃ bid_top ask_top : ℚ × ℚ,
        ((booksForSymbol st_ex "X/USDT").get ⟨i, Nat.lt_trans hij hj⟩).2.bids.head? =
          some bid_top ∧
        ((booksForSymbol st_ex "X/USDT").get ⟨j, hj⟩).2.asks.head? = some ask_top ∧
        bid_top.1 = trade_ex.price_sell ∧ ask_top.1 = trade_ex.price_buy ∧
        bid_top.1 > ask_top.1 ∧
        profit_net_pct trade_ex.exchange_buy trade_ex.exchange_sell ask_top.1
          bid_top.1 CONFIG.trade_amount_btc ≥ CONFIG.arbitrage_min_profit_percent := by
  have hd : detect_opportunities_for_symbol CONFIG st_ex "X/USDT" = [trade_ex] := by
    simp [detect_opportunities_for_symbol, booksForSymbol, scanPairs, evalPair,
      profit_net_pct, lookupKey, st_ex, book_a_ex, book_b_ex, CONFIG, feeOf, FEES,
      trade_ex, List.filterMap_cons, List.filterMap_nil]
    norm_num
  exact (pairwise_single_direction CONFIG st_ex "X/USDT").2 trade_ex
    (by rw [hd]; exact List.mem_cons_self _ _)

/-! Claim C5: the triangle enumeration. -/

theorem mem_triangle_inner_c {ex_books : List (String × OrderBook)}
    {a b c : String} {t : Tri} (h : t ∈ triangle_inner_c ex_books a b c) :
    t.a = a ∧ t.b = b ∧ t.c = c ∧ b.data < c.data ∧
    find_pair ex_books a b = some t.pab ∧ find_pair ex_books b c = some t.pbc ∧
    find_pair ex_books c a = some t.pca := by
  unfold triangle_inner_c at h
  split at h
  · rename_i hlt
    split at h
    · rename_i pab pbc pca hab hbc hca
      rcases List.mem_singleton.1 h with rfl
      exact ⟨rfl, rfl, rfl, hlt, hab, hbc, hca⟩
    · cases h
  · cases h

theorem mem_triangle_inner_b {ex_books : List (String × OrderBook)}
    {coins : List String} {a b : String} {t : Tri}
    (h : t ∈ triangle_inner_b ex_books coins a b) :
    a.data < b.data ∧ ∃ c ∈ coins, t ∈ triangle_inner_c ex_books a b c := by
  unfold triangle_inner_b at h
  split at h
  · rename_i hlt
    exact ⟨hlt, List.mem_flatMap.1 h⟩
  · cases h

theorem mem_triangleCandidates {ex_books : List (String × OrderBook)} {t : Tri}
    (h : t ∈ triangleCandidates ex_books) :
    ∃ a ∈ coinsAllowed ex_books, ∃ b ∈ coinsAllowed ex_books,
      t ∈ triangle_inner_b ex_books (coinsAllowed ex_books) a b := by
  unfold triangleCandidates at h
  split at h
  · cases h
  · rcases List.mem_flatMap.1 h with ⟨a, ha, h2⟩
    rcases List.mem_flatMap.1 h2 with ⟨b, hb, h3⟩
    exact ⟨a, ha, b, hb, h3⟩

theorem triangleCandidates_spec {ex_books : List (String × OrderBook)} {t : Tri}
    (h : t ∈ triangleCandidates ex_books) :
    t.a ∈ coinsAllowed ex_books ∧ t.b ∈ coinsAllowed ex_books ∧
    t.c ∈ coinsAllowed ex_books ∧ t.a.data < t.b.data ∧ t.b.data < t.c.data ∧
    find_pair ex_books t.a t.b = some t.pab ∧
    find_pair ex_books t.b t.c = some t.pbc ∧
    find_pair ex_books t.c t.a = some t.pca := by
  rcases mem_triangleCandidates h with ⟨a, ha, b, hb, hib⟩
  rcases mem_triangle_inner_b hib with ⟨hab, c, hc, hic⟩
  rcases mem_triangle_inner_c hic with ⟨hta, htb, htc, hbc, hp1, hp2, hp3⟩
  subst hta; subst htb; subst htc
  exact ⟨ha, hb, hc, hab, hbc, hp1, hp2, hp3⟩

theorem flatMap_nodup_key {α β : Type} (l : List α) (f : α → List β) (key : β → α)
    (hl : l.Nodup) (hf : ∀ x ∈ l, (f x).Nodup)
    (hkey : ∀ x ∈ l, ∀ t ∈ f x, key t = x) : (l.flatMap f).Nodup := by
  induction l with
  | nil => simp
  | cons x xs ih =>
    rw [List.flatMap_cons]
    rcases List.nodup_cons.1 hl with ⟨hx, hxs⟩
    refine List.Nodup.append (hf x (List.mem_cons_self _ _))
      (ih hxs (fun y hy => hf y (List.mem_cons_of_mem _ hy))
        (fun y hy => hkey y (List.mem_cons_of_mem _ hy))) ?_
    intro u hu1 hu2
    rcases List.mem_flatMap.1 hu2 with ⟨y, hy, huy⟩
    have h1 := hkey x (List.mem_cons_self _ _) u hu1
    have h2 := hkey y (List.mem_cons_of_mem _ hy) u huy
    exact hx (by rw [← h1, h2]; exact hy)

theorem nodup_triangle_inner_c (ex_books : List (String × OrderBook))
    (a b c : String) : (triangle_inner_c ex_books a b c).Nodup := by
  unfold triangle_inner_c
  split
  · split <;> simp
  · simp

theorem nodup_triangle_inner_b (ex_books : List (String × OrderBook))
    {coins : List String} (hnd : coins.Nodup) (a b : String) :
    (triangle_inner_b ex_books coins a b).Nodup := by
  unfold triangle_inner_b
  split
  · exact flatMap_nodup_key coins _ (fun t => t.c) hnd
      (fun c _ => nodup_triangle_inner_c ex_books a b c)
      (fun c _ t ht => (mem_triangle_inner_c ht).2.2.1)
  · simp

theorem nodup_coinsAllowed (ex_books : List (String × OrderBook)) :
    (coinsAllowed ex_books).Nodup :=
  (List.nodup_dedup _).filter _

theorem nodup_triangleCandidates (ex_books : List (String × OrderBook)) :
    (triangleCandidates ex_books).Nodup := by
  unfold triangleCandidates
  split
  · simp
  · refine flatMap_nodup_key _ _ (fun t => t.a) (nodup_coinsAllowed ex_books) ?_ ?_
    · intro a _
      refine flatMap_nodup_key _ _ (fun t => t.b) (nodup_coinsAllowed ex_books) ?_ ?_
      · intro b _
        exact nodup_triangle_inner_b ex_books (nodup_coinsAllowed ex_books) a b
      · intro b _ t ht
        rcases mem_triangle_inner_b ht with ⟨_, c, _, hic⟩
        exact (mem_triangle_inner_c hic).2.1
    · intro a _ t ht
      rcases List.mem_flatMap.1 ht with ⟨b, _, hib⟩
      rcases mem_triangle_inner_b hib with ⟨_, c, _, hic⟩
      exact (mem_triangle_inner_c hic).1

/-- C5: a venue scan's triangle enumeration only ever considers coins in
the intersection of the venue's currencies with the hard-coded common-coin
allow-list; each evaluated triple is strictly increasing in lexicographic
order `a < b < c`; and no two evaluated triples are permutations of one
another, so every unordered coin triple is evaluated at most once. -/
theorem triangle_enumeration (ex_books : List (String × OrderBook)) :
    (∀ t ∈ triangleCandidates ex_books,
        (t.a ∈ coinsOf ex_books ∧ t.a ∈ common_coins) ∧
        (t.b ∈ coinsOf ex_books ∧ t.b ∈ common_coins) ∧
        (t.c ∈ coinsOf ex_books ∧ t.c ∈ common_coins) ∧
        t.a < t.b ∧ t.b < t.c) ∧
    (triangleCandidates ex_books).Pairwise
      (fun s t => ¬ ([s.a, s.b, s.c].Perm [t.a, t.b, t.c])) := by
  constructor
  · intro t ht
    rcases triangleCandidates_spec ht with ⟨ha, hb, hc, hab, hbc, -, -, -⟩
    have conv : ∀ x : String, x ∈ coinsAllowed ex_books →
        x ∈ coinsOf ex_books ∧ x ∈ common_coins := by
      intro x hx
      rcases List.mem_filter.1 hx with ⟨h1, h2⟩
      exact ⟨h1, by simpa using h2⟩
    exact ⟨conv _ ha, conv _ hb, conv _ hc,
      String.lt_iff_toList_lt.2 hab, String.lt_iff_toList_lt.2 hbc⟩
  · refine List.Pairwise.imp_of_mem ?_ (nodup_triangleCandidates ex_books)
    intro s t hs ht hne hperm
    apply hne
    rcases triangleCandidates_spec hs with ⟨-, -, -, hab, hbc, hp1, hp2, hp3⟩
    rcases triangleCandidates_spec ht with ⟨-, -, -, hab', hbc', hq1, hq2, hq3⟩
    have hab2 : s.a < s.b := String.lt_iff_toList_lt.2 hab
    have hbc2 : s.b < s.c := String.lt_iff_toList_lt.2 hbc
    have hab2' : t.a < t.b := String.lt_iff_toList_lt.2 hab'
    have hbc2' : t.b < t.c := String.lt_iff_toList_lt.2 hbc'
    have hsort1 : [s.a, s.b, s.c].Sorted (· ≤ ·) := by
      refine List.Pairwise.cons ?_ (List.Pairwise.cons ?_ (List.pairwise_singleton _ _))
      · intro y hy
        rcases List.mem_cons.1 hy with rfl | hy2
        · exact le_of_lt hab2
        · rcases List.mem_singleton.1 hy2 with rfl
          exact le_of_lt (lt_trans hab2 hbc2)
      · intro y hy
        rcases List.mem_singleton.1 hy with rfl
        exact le_of_lt hbc2
    have hsort2 : [t.a, t.b, t.c].Sorted (· ≤ ·) := by
      refine List.Pairwise.cons ?_ (List.Pairwise.cons ?_ (List.pairwise_singleton _ _))
      · intro y hy
        rcases List.mem_cons.1 hy with rfl | hy2
        · exact le_of_lt hab2'
        · rcases List.mem_singleton.1 hy2 with rfl
          exact le_of_lt (lt_trans hab2' hbc2')
      · intro y hy
        rcases List.mem_singleton.1 hy with rfl
        exact le_of_lt hbc2'
    have hlist := List.eq_of_perm_of_sorted hperm hsort1 hsort2
    obtain ⟨hea, hrest⟩ := List.cons.inj hlist
    obtain ⟨heb, hrest2⟩ := List.cons.inj hrest
    obtain ⟨hec, -⟩ := List.cons.inj hrest2
    rw [hea, heb] at hp1; rw [heb, hec] at hp2; rw [hec, hea] at hp3
    rw [hq1] at hp1; rw [hq2] at hp2; rw [hq3] at hp3
    cases s; cases t
    simp only at hea heb hec hp1 hp2 hp3
    simp only [Option.some.injEq] at hp1 hp2 hp3
    subst hea; subst heb; subst hec; subst hp1; subst hp2; subst hp3
    rfl

/-- Witness for C5 at the concrete venue books `ex_books_tri`. -/
theorem triangle_enumeration_witness :
    ("BTC" : String) < "ETH" ∧ ("ETH" : String) < "USDT" := by
  have h := (triangle_enumeration ex_books_tri).1 tri_ex
    (by simp +decide [triangleCandidates, coinsAllowed, coinsOf, ex_books_tri,
      common_coins, triangle_inner_b, triangle_inner_c, find_pair, List.dedup,
      splitSlash, splitSlashAux, tri_ex])
  exact ⟨h.2.2.2.1, h.2.2.2.2⟩

/-! Claim C1: the triangular profit evaluation (modelled from the spec;
the source's `_evaluate_triangle` is an explicit placeholder). -/

/-- C1: for every qualifying triple — one reached by the source's
enumeration, whose three edge books are present with non-empty sides — the
evaluation computes the cycle a→b→c→a with the conversion factor
bestBid(edge) when the cycle coin is the edge's base and 1/bestAsk(edge)
otherwise, forms the round-trip multiplier as the product of the three
factors each reduced by the venue's trading fee, sets
net% = (multiplier − 1)×100 minus the cumulative fee%, and emits the
opportunity into the scan's output iff net% reaches the configured
minimum profit threshold. -/
theorem triangle_eval_spec (cfg : Config) (venue : String)
    (ex_books : List (String × OrderBook)) (t : Tri)
    (book_ab book_bc book_ca : OrderBook)
    (base1 quote1 base2 quote2 base3 quote3 : String)
    (bid1 ask1 bid2 ask2 bid3 ask3 : ℚ × ℚ)
    (bids1 asks1 bids2 asks2 bids3 asks3 : List (ℚ × ℚ))
    (hmem : t ∈ triangleCandidates ex_books)
    (h1 : lookupKey ex_books t.pab = some book_ab)
    (h2 : lookupKey ex_books t.pbc = some book_bc)
    (h3 : lookupKey ex_books t.pca = some book_ca)
    (hs1 : splitSlash t.pab = [base1, quote1])
    (hs2 : splitSlash t.pbc = [base2, quote2])
    (hs3 : splitSlash t.pca = [base3, quote3])
    (hb1 : book_ab.bids = bid1 :: bids1) (ha1 : book_ab.asks = ask1 :: asks1)
    (hb2 : book_bc.bids = bid2 :: bids2) (ha2 : book_bc.asks = ask2 :: asks2)
    (hb3 : book_ca.bids = bid3 :: bids3) (ha3 : book_ca.asks = ask3 :: asks3) :
    (((if t.a = base1 then bid1.1 else 1 / ask1.1) * (1 - feeOf venue) *
        ((if t.b = base2 then bid2.1 else 1 / ask2.1) * (1 - feeOf venue)) *
        ((if t.c = base3 then bid3.1 else 1 / ask3.1) * (1 - feeOf venue)) - 1) * 100 -
          (feeOf venue + feeOf venue + feeOf venue) * 100 ≥
        cfg.arbitrage_min_profit_percent →
      (⟨venue, t.a, t.b, t.c,
        ((if t.a = base1 then bid1.1 else 1 / ask1.1) * (1 - feeOf venue) *
          ((if t.b = base2 then bid2.1 else 1 / ask2.1) * (1 - feeOf venue)) *
          ((if t.c = base3 then bid3.1 else 1 / ask3.1) * (1 - feeOf venue)) - 1) * 100 -
            (feeOf venue + feeOf venue + feeOf venue) * 100⟩ : TriOpp) ∈
        detect_triangular_opportunities cfg venue ex_books) ∧
    (¬ ((if t.a = base1 then bid1.1 else 1 / ask1.1) * (1 - feeOf venue) *
        ((if t.b = base2 then bid2.1 else 1 / ask2.1) * (1 - feeOf venue)) *
        ((if t.c = base3 then bid3.1 else 1 / ask3.1) * (1 - feeOf venue)) - 1) * 100 -
          (feeOf venue + feeOf venue + feeOf venue) * 100 ≥
        cfg.arbitrage_min_profit_percent →
      evaluateTriangle cfg venue t ex_books = none) := by
  have heval : evaluateTriangle cfg venue t ex_books =
      if ((if t.a = base1 then bid1.1 else 1 / ask1.1) * (1 - feeOf venue) *
          ((if t.b = base2 then bid2.1 else 1 / ask2.1) * (1 - feeOf venue)) *
          ((if t.c = base3 then bid3.1 else 1 / ask3.1) * (1 - feeOf venue)) - 1) * 100 -
            (feeOf venue + feeOf venue + feeOf venue) * 100 ≥
          cfg.arbitrage_min_profit_percent then
        some ⟨venue, t.a, t.b, t.c,
          ((if t.a = base1 then bid1.1 else 1 / ask1.1) * (1 - feeOf venue) *
            ((if t.b = base2 then bid2.1 else 1 / ask2.1) * (1 - feeOf venue)) *
            ((if t.c = base3 then bid3.1 else 1 / ask3.1) * (1 - feeOf venue)) - 1) * 100 -
              (feeOf venue + feeOf venue + feeOf venue) * 100⟩
      else none := by
    simp only [evaluateTriangle, h1, h2, h3, edgeFactor, hs1, hs2, hs3,
      hb1, ha1, hb2, ha2, hb3, ha3]
  constructor
  · intro hge
    refine List.mem_filterMap.2 ⟨t, hmem, ?_⟩
    rw [heval, if_pos hge]
  · intro hlt
    rw [heval, if_neg hlt]

/-- Witness for C1: on `ex_books_tri`, the BTC→ETH→USDT→BTC cycle clears
the threshold and the scan's output is non-empty. -/
theorem triangle_eval_spec_witness :
    detect_triangular_opportunities CONFIG "binance" ex_books_tri ≠ [] := by
  have h := (triangle_eval_spec CONFIG "binance" ex_books_tri tri_ex
    book_tri_ab book_tri_bc book_tri_ca
    "ETH" "BTC" "ETH" "USDT" "BTC" "USDT"
    (1, 1) (1/20, 1) (2000, 1) (2001, 1) (29990, 1) (30000, 1)
    [] [] [] [] [] []
    (by simp +decide [triangleCandidates, coinsAllowed, coinsOf, ex_books_tri,
      common_coins, triangle_inner_b, triangle_inner_c, find_pair, List.dedup,
      splitSlash, splitSlashAux, tri_ex])
    (by simp [lookupKey, ex_books_tri, tri_ex])
    (by simp [lookupKey, ex_books_tri, tri_ex])
    (by simp [lookupKey, ex_books_tri, tri_ex])
    (by simp +decide [splitSlash, splitSlashAux, tri_ex])
    (by simp +decide [splitSlash, splitSlashAux, tri_ex])
    (by simp +decide [splitSlash, splitSlashAux, tri_ex])
    rfl rfl rfl rfl rfl rfl).1
    (by simp +decide [tri_ex, feeOf, lookupKey, FEES, CONFIG]; norm_num)
  exact List.ne_nil_of_mem h

end ARB
